import Mathlib

/-!
# Trakt integration of the TMDB addon: a shallow embedding

Sources embedded here:

* `addon/lib/getTraktLists.js`   : `getTraktWatchlist`, `getTraktRecommendations`
* `addon/lib/getTraktSession.js` : `getRedirectUri`, `getTraktAuthUrl`,
  `getTraktAccessToken`, `refreshTraktAccessToken`
* `configure/src/integrations/trakt.tsx` : the two `setCatalogs` updaters
  (connect and logout)

JavaScript values are a small inductive type; `async` functions become
computations that return the ordered list of effects they issued together with
their completion (a returned value or a thrown one).

Modelling choices:

* arguments that the code uses as strings (`type`, `language`, `code`, the
  request host, the ids and types of catalog entries) are strings; an optional
  string argument or `process.env` entry is an `Option String`, absent when
  `none`;
* the collaborators (`get`, `post`, `getMeta`) are functions of their
  arguments into a completion; every call is recorded as an effect;
* strings are sequences of Unicode characters, so a lone surrogate does not
  occur; numbers are integers.
-/

set_option autoImplicit false

namespace Trakt

/-! ## JavaScript values -/

/-- JavaScript values as far as this code observes them. Numbers are integers
(the identifiers of the remote service); `error` is an `Error` instance with
its `name` and `message`. -/
inductive JSVal where
  | undefined : JSVal
  | null : JSVal
  | bool (b : Bool) : JSVal
  | num (n : Int) : JSVal
  | str (s : String) : JSVal
  | arr (items : List JSVal) : JSVal
  | obj (fields : List (String × JSVal)) : JSVal
  | error (name : String) (message : String) : JSVal

namespace JSVal

/-- ToBoolean: `undefined`, `null`, `false`, `0` and the empty string are falsy. -/
def truthy : JSVal → Bool
  | undefined => false
  | null => false
  | bool b => b
  | num n => n != 0
  | str s => s != ""
  | arr _ => true
  | obj _ => true
  | error _ _ => true

/-- The values `undefined` and `null`. -/
def nullish : JSVal → Bool
  | undefined => true
  | null => true
  | _ => false

/-- The `TypeError` thrown by a property read on `undefined` or `null`. -/
def typeError (what : String) : JSVal :=
  error "TypeError" what

/-- Property read `v.key` for a plain (non-index, non-builtin) property name:
throws a `TypeError` on `undefined` and `null`, reads the own property of an
object (`undefined` when missing), and is `undefined` on the other values. -/
def prop (v : JSVal) (key : String) : Except JSVal JSVal :=
  match v with
  | undefined =>
      .error (typeError ("Cannot read properties of undefined (reading \x27" ++ key ++ "\x27)"))
  | null =>
      .error (typeError ("Cannot read properties of null (reading \x27" ++ key ++ "\x27)"))
  | obj fields => .ok ((fields.lookup key).getD undefined)
  | error name message =>
      .ok (if key = "message" then str message else if key = "name" then str name else undefined)
  | _ => .ok undefined

/-- Optional chaining `v?.key`: `undefined` when `v` is `undefined` or `null`. -/
def optProp (v : JSVal) (key : String) : Except JSVal JSVal :=
  if v.nullish then .ok undefined else v.prop key

/-- The operator `a || b`. -/
def orElse (a b : JSVal) : JSVal :=
  if a.truthy then a else b

/-- The values a `for ... of` loop visits: the elements of an array, the
characters of a string; other values are not iterable. -/
def iterate : JSVal → Except JSVal (List JSVal)
  | arr items => .ok items
  | str s => .ok (s.toList.map fun c => str (String.mk [c]))
  | _ => .error (typeError "items is not iterable")

end JSVal

/-- A `process.env` entry as a JavaScript value. -/
def envVal : Option String → JSVal
  | none => .undefined
  | some s => .str s

/-- Truthiness of a `process.env` entry or of an optional string argument:
set and not empty. -/
def present : Option String → Bool
  | none => false
  | some s => s != ""

/-! ## Effects -/

/-- The observable effects of the embedded functions. -/
inductive Event where
  | httpGet (url : String) (headers : List (String × JSVal)) : Event
  | httpPost (url : String) (body : JSVal) (headers : List (String × JSVal)) : Event
  | getMeta (type : String) (language : String) (tmdbId : JSVal) : Event
  | consoleError (label : String) (err : JSVal) : Event

/-- An `async` computation: the effects it issued, in order, and how it
completed (`ok` for a returned value, `error` for a thrown one). -/
def Js (α : Type) : Type := List Event × Except JSVal α

namespace Js

/-- A computation that returns without effect. -/
def ret {α : Type} (a : α) : Js α := ([], .ok a)

/-- The statement `throw e`. -/
def throw {α : Type} (e : JSVal) : Js α := ([], .error e)

/-- Sequencing: a thrown value skips the rest, the effects issued so far stay. -/
def andThen {α β : Type} (m : Js α) (f : α → Js β) : Js β :=
  match m with
  | (t, .ok a) => (t ++ (f a).1, (f a).2)
  | (t, .error e) => (t, .error e)

/-- The block `try m catch (e) h`. -/
def tryCatch {α : Type} (m : Js α) (h : JSVal → Js α) : Js α :=
  match m with
  | (t, .ok a) => (t, .ok a)
  | (t, .error e) => (t ++ (h e).1, (h e).2)

/-- An effect-free step that may throw. -/
def lift {α : Type} (r : Except JSVal α) : Js α := ([], r)

/-- One effect followed by its outcome. -/
def emit {α : Type} (ev : Event) (r : Except JSVal α) : Js α := ([ev], r)

instance : Monad Js where
  pure := ret
  bind := andThen

end Js

/-- The collaborators and settings of the module: `process.env`, the HTTP
client of `utils/httpClient` and the resolver `getMeta`. A rejected promise is
an `error` carrying the rejection value. -/
structure Env where
  TRAKT_CLIENT_ID : Option String
  TRAKT_CLIENT_SECRET : Option String
  TRAKT_REDIRECT_URI : Option String
  HOST_NAME : Option String
  get : String → List (String × JSVal) → Except JSVal JSVal
  post : String → JSVal → List (String × JSVal) → Except JSVal JSVal
  getMeta : String → String → JSVal → Except JSVal JSVal

/-- The call `await get(url, { headers })`. -/
def httpGet (env : Env) (url : String) (headers : List (String × JSVal)) : Js JSVal :=
  Js.emit (.httpGet url headers) (env.get url headers)

/-- The call `await post(url, body, { headers })`. -/
def httpPost (env : Env) (url : String) (body : JSVal) (headers : List (String × JSVal)) :
    Js JSVal :=
  Js.emit (.httpPost url body headers) (env.post url body headers)

/-- The call `await getMeta(type, language, tmdbId)`. -/
def callGetMeta (env : Env) (type language : String) (tmdbId : JSVal) : Js JSVal :=
  Js.emit (.getMeta type language tmdbId) (env.getMeta type language tmdbId)

/-- The call `console.error(label, err)`. -/
def consoleError (label : String) (err : JSVal) : Js Unit :=
  Js.emit (.consoleError label err) (.ok ())

/-! ## `addon/lib/getTraktLists.js` -/

/-- The text a template literal inserts for an optional string argument. -/
def templateText : Option String → String
  | none => "undefined"
  | some s => s

/-- Lines 28-34 of `getTraktWatchlist`: the identifier of a watchlist item,
`item.movie?.ids?.tmdb` for movies and `item.show?.ids?.tmdb` otherwise. -/
def watchlistTmdbId (type : String) (item : JSVal) : Except JSVal JSVal :=
  if type = "movie" then do
    let movie ← item.prop "movie"
    let ids ← movie.optProp "ids"
    ids.optProp "tmdb"
  else do
    let «show» ← item.prop "show"
    let ids ← «show».optProp "ids"
    ids.optProp "tmdb"

/-- Line 75 of `getTraktRecommendations`: the identifier `item.ids?.tmdb`. -/
def recommendationTmdbId (item : JSVal) : Except JSVal JSVal := do
  let ids ← item.prop "ids"
  ids.optProp "tmdb"

/-- Lines 26-43: the loop of `getTraktWatchlist` over the raw items; `metas`
is the array built so far. -/
def watchlistLoop (env : Env) (type language : String) :
    List JSVal → List JSVal → Js (List JSVal)
  | [], metas => pure metas
  | item :: rest, metas => do
      let metas ← Js.tryCatch
        (do
          let tmdbId ← Js.lift (watchlistTmdbId type item)
          if tmdbId.truthy then
            let «meta» ← callGetMeta env type language tmdbId
            let record ← Js.lift («meta».prop "meta")
            pure (metas ++ [record])
          else
            pure metas)
        (fun err => do
          consoleError "Error processing Trakt item:" err
          pure metas)
      watchlistLoop env type language rest metas

/-- The function `getTraktWatchlist(type, language, page, genre, accessToken)`. -/
def getTraktWatchlist (env : Env) (type language : String) (page : Int) (genre : JSVal)
    (accessToken : Option String) : Js JSVal :=
  let _ := genre
  if !present accessToken then
    Js.throw (.error "Error" "Trakt access token not provided")
  else
    Js.tryCatch
      (do
        let typeParam := if type = "movie" then "movies" else "shows"
        let limit : Int := 20
        let _offset := (page - 1) * limit
        let response ← httpGet env
          ("https://api.trakt.tv/sync/watchlist/" ++ typeParam ++ "?limit=" ++ toString limit
            ++ "&extended=full")
          [("Authorization", .str ("Bearer " ++ templateText accessToken)),
           ("trakt-api-version", .str "2"),
           ("trakt-api-key", envVal env.TRAKT_CLIENT_ID)]
        let data ← Js.lift (response.prop "data")
        let items ← Js.lift (data.orElse (.arr [])).iterate
        let metas ← watchlistLoop env type language items []
        pure (.obj [("metas", .arr metas)]))
      (fun err => do
        consoleError "Error fetching Trakt watchlist:" err
        Js.throw err)

/-- Lines 73-84: the loop of `getTraktRecommendations` over the raw items. -/
def recommendationsLoop (env : Env) (type language : String) :
    List JSVal → List JSVal → Js (List JSVal)
  | [], metas => pure metas
  | item :: rest, metas => do
      let metas ← Js.tryCatch
        (do
          let tmdbId ← Js.lift (recommendationTmdbId item)
          if tmdbId.truthy then
            let «meta» ← callGetMeta env type language tmdbId
            let record ← Js.lift («meta».prop "meta")
            pure (metas ++ [record])
          else
            pure metas)
        (fun err => do
          consoleError "Error processing Trakt recommendation:" err
          pure metas)
      recommendationsLoop env type language rest metas

/-- The function `getTraktRecommendations(type, language, page, genre, accessToken)`. -/
def getTraktRecommendations (env : Env) (type language : String) (page : Int) (genre : JSVal)
    (accessToken : Option String) : Js JSVal :=
  let _ := genre
  if !present accessToken then
    Js.throw (.error "Error" "Trakt access token not provided")
  else
    Js.tryCatch
      (do
        let typeParam := if type = "movie" then "movies" else "shows"
        let limit : Int := 20
        let _offset := (page - 1) * limit
        let response ← httpGet env
          ("https://api.trakt.tv/recommendations/" ++ typeParam ++ "?limit=" ++ toString limit
            ++ "&extended=full")
          [("Authorization", .str ("Bearer " ++ templateText accessToken)),
           ("trakt-api-version", .str "2"),
           ("trakt-api-key", envVal env.TRAKT_CLIENT_ID)]
        let data ← Js.lift (response.prop "data")
        let items ← Js.lift (data.orElse (.arr [])).iterate
        let metas ← recommendationsLoop env type language items []
        pure (.obj [("metas", .arr metas)]))
      (fun err => do
        consoleError "Error fetching Trakt recommendations:" err
        Js.throw err)

/-! ## `addon/lib/getTraktSession.js` -/

/-- The call `s.replace(/\/$/, "")`: a slash that ends the string is removed,
one at most. -/
def stripTrailingSlash (s : String) : String :=
  if s.toList.getLast? = some '/' then String.mk s.toList.dropLast else s

/-- The function `getRedirectUri(requestHost = null)`. -/
def getRedirectUri (env : Env) (requestHost : Option String) : String :=
  if present requestHost then
    let baseUrl := stripTrailingSlash (templateText requestHost)
    baseUrl ++ "/configure"
  else
    if present env.TRAKT_REDIRECT_URI then templateText env.TRAKT_REDIRECT_URI
    else
      (if present env.HOST_NAME then templateText env.HOST_NAME else "http://localhost:1337")
        ++ "/configure"

/-- Characters that `encodeURIComponent` leaves as they are: ASCII letters and
digits and the marks `- _ . ! ~ * ( )` and the apostrophe. -/
def uriUnreserved (c : Char) : Bool :=
  c.isAlphanum || [45, 95, 46, 33, 126, 42, 39, 40, 41].contains c.toNat

/-- The UTF-8 bytes of a character. -/
def utf8Bytes (c : Char) : List Nat :=
  let n := c.toNat
  if n < 128 then [n]
  else if n < 2048 then [192 + n / 64, 128 + n % 64]
  else if n < 65536 then [224 + n / 4096, 128 + n / 64 % 64, 128 + n % 64]
  else [240 + n / 262144, 128 + n / 4096 % 64, 128 + n / 64 % 64, 128 + n % 64]

/-- An upper-case hexadecimal digit. -/
def hexDigit (n : Nat) : Char :=
  "0123456789ABCDEF".toList.getD n '0'

/-- The escape `%XX` of one byte. -/
def percentByte (b : Nat) : List Char :=
  ['%', hexDigit (b / 16), hexDigit (b % 16)]

/-- The characters `encodeURIComponent` writes for one character. -/
def encodeChar (c : Char) : List Char :=
  if uriUnreserved c then [c] else (utf8Bytes c).flatMap percentByte

/-- The builtin `encodeURIComponent`. -/
def encodeURIComponent (s : String) : String :=
  String.mk (s.toList.flatMap encodeChar)

/-- The call `s.substring(a, b)` for `a ≤ b`. -/
def substring (s : String) (a b : Nat) : String :=
  String.mk ((s.toList.drop a).take (b - a))

/-- The function `getTraktAuthUrl(requestHost = null)`. The two arguments
`random1` and `random2` are the texts of the two `Math.random().toString(36)`
calls. -/
def getTraktAuthUrl (env : Env) (requestHost : Option String) (random1 random2 : String) :
    Js JSVal :=
  if !present env.TRAKT_CLIENT_ID then
    Js.throw (.error "Error" "TRAKT_CLIENT_ID not configured")
  else
    let redirectUri := getRedirectUri env requestHost
    let state := substring random1 2 15 ++ substring random2 2 15
    let authUrl := "https://trakt.tv/oauth/authorize?response_type=code&client_id="
      ++ templateText env.TRAKT_CLIENT_ID ++ "&redirect_uri=" ++ encodeURIComponent redirectUri
      ++ "&state=" ++ state
    pure (.obj [("authUrl", .str authUrl), ("state", .str state), ("redirectUri", .str redirectUri)])

/-- The function `getTraktAccessToken(code, redirectUri = null)`. -/
def getTraktAccessToken (env : Env) (code : String) (redirectUri : Option String) : Js JSVal :=
  if !present env.TRAKT_CLIENT_ID || !present env.TRAKT_CLIENT_SECRET then
    Js.throw (.error "Error" "TRAKT_CLIENT_ID ou TRAKT_CLIENT_SECRET não configurados")
  else
    let finalRedirectUri :=
      if present redirectUri then templateText redirectUri else getRedirectUri env none
    Js.tryCatch
      (do
        let response ← httpPost env "https://api.trakt.tv/oauth/token"
          (.obj [("code", .str code),
                 ("client_id", envVal env.TRAKT_CLIENT_ID),
                 ("client_secret", envVal env.TRAKT_CLIENT_SECRET),
                 ("redirect_uri", .str finalRedirectUri),
                 ("grant_type", .str "authorization_code")])
          [("Content-Type", .str "application/json")]
        let data ← Js.lift (response.prop "data")
        pure (data.orElse response))
      (fun err => do
        consoleError "Error obtaining Trakt access token:" err
        let message ← Js.lift (err.prop "message")
        pure (.obj [("success", .bool false),
                    ("error", message.orElse (.str "Error authenticating with Trakt"))]))

/-- The function `refreshTraktAccessToken(refreshToken, redirectUri = null)`. -/
def refreshTraktAccessToken (env : Env) (refreshToken : String) (redirectUri : Option String) :
    Js JSVal :=
  if !present env.TRAKT_CLIENT_ID || !present env.TRAKT_CLIENT_SECRET then
    Js.throw (.error "Error" "TRAKT_CLIENT_ID or TRAKT_CLIENT_SECRET not configured")
  else
    let finalRedirectUri :=
      if present redirectUri then templateText redirectUri else getRedirectUri env none
    Js.tryCatch
      (do
        let response ← httpPost env "https://api.trakt.tv/oauth/token"
          (.obj [("refresh_token", .str refreshToken),
                 ("client_id", envVal env.TRAKT_CLIENT_ID),
                 ("client_secret", envVal env.TRAKT_CLIENT_SECRET),
                 ("redirect_uri", .str finalRedirectUri),
                 ("grant_type", .str "refresh_token")])
          [("Content-Type", .str "application/json")]
        let data ← Js.lift (response.prop "data")
        pure (data.orElse response))
      (fun err => do
        consoleError "Error refreshing Trakt access token:" err
        let message ← Js.lift (err.prop "message")
        pure (.obj [("success", .bool false),
                    ("error", message.orElse (.str "Error refreshing Trakt token"))]))

/-! ## `configure/src/integrations/trakt.tsx` -/

/-- Modelled from the spec: the type of a catalog entry, declared in
`contexts/ConfigContext` (not among the sources); the fields are those of the
spec's data model. -/
structure CatalogConfig where
  id : String
  type : String
  name : String
  enabled : Bool
  showInHome : Bool
  deriving DecidableEq, Repr

/-- Lines 54-83: the constant `traktCatalogsToAdd`. -/
def traktCatalogsToAdd : List CatalogConfig :=
  [ { id := "trakt.watchlist", type := "movie", name := "Trakt Watchlist",
      enabled := true, showInHome := true },
    { id := "trakt.watchlist", type := "series", name := "Trakt Watchlist",
      enabled := true, showInHome := true },
    { id := "trakt.recommendations", type := "movie", name := "Trakt Recommendations",
      enabled := true, showInHome := true },
    { id := "trakt.recommendations", type := "series", name := "Trakt Recommendations",
      enabled := true, showInHome := true } ]

/-- The template literal of lines 86 and 88: the id, a hyphen, the type. -/
def catalogKey (c : CatalogConfig) : String :=
  c.id ++ "-" ++ c.type

/-- Lines 85-103: the `setCatalogs` updater run by `handleAccessToken`. The set
`existingIds` is the list of its members. -/
def mergeVirtualCatalogs (prev : List CatalogConfig) : List CatalogConfig :=
  let existingIds := prev.map catalogKey
  let newCatalogs := traktCatalogsToAdd.filter fun c => !existingIds.contains (catalogKey c)
  let updatedCatalogs := prev.map fun c =>
    match traktCatalogsToAdd.find? (fun tc => tc.id == c.id && tc.type == c.type) with
    | some _ => { c with enabled := true, showInHome := true }
    | none => c
  updatedCatalogs ++ newCatalogs

/-- The call `s.startsWith(p)`. -/
def startsWith (s p : String) : Bool :=
  p.toList.isPrefixOf s.toList

/-- Line 168: the `setCatalogs` updater run by `handleLogout`. -/
def removeVirtualCatalogs (prev : List CatalogConfig) : List CatalogConfig :=
  prev.filter fun c => !startsWith c.id "trakt."

/-! ## Notions used by the statements -/

/-- The two remote lists; `getTraktWatchlist` serves the first and
`getTraktRecommendations` the second. -/
inductive ListName where
  | watchlist : ListName
  | recommendations : ListName
  deriving DecidableEq, Repr

/-- The list synchronisation under one name: the entry point of the given list. -/
def sync (listName : ListName) (env : Env) (type language : String) (page : Int)
    (genre : JSVal) (accessToken : Option String) : Js JSVal :=
  match listName with
  | .watchlist => getTraktWatchlist env type language page genre accessToken
  | .recommendations => getTraktRecommendations env type language page genre accessToken

/-- The identifier expression of the given list. -/
def tmdbIdOf (listName : ListName) (type : String) (item : JSVal) : Except JSVal JSVal :=
  match listName with
  | .watchlist => watchlistTmdbId type item
  | .recommendations => recommendationTmdbId item

/-- The URL of the list request as the remote service receives it. -/
def listUrl (listName : ListName) (type : String) : String :=
  match listName with
  | .watchlist =>
      "https://api.trakt.tv/sync/watchlist/" ++ (if type = "movie" then "movies" else "shows")
        ++ "?limit=20&extended=full"
  | .recommendations =>
      "https://api.trakt.tv/recommendations/" ++ (if type = "movie" then "movies" else "shows")
        ++ "?limit=20&extended=full"

/-- The headers of the list request for a given access token. -/
def listHeaders (env : Env) (token : String) : List (String × JSVal) :=
  [("Authorization", .str ("Bearer " ++ token)),
   ("trakt-api-version", .str "2"),
   ("trakt-api-key", envVal env.TRAKT_CLIENT_ID)]

/-- The fetch of the list succeeds and its response carries the raw item list
`items` as `data`. -/
def Fetched (listName : ListName) (env : Env) (type : String) (accessToken : Option String)
    (items : List JSVal) : Prop :=
  ∃ response, env.get (listUrl listName type) (listHeaders env (templateText accessToken))
      = .ok response ∧ response.prop "data" = .ok (.arr items)

/-- Resolution of an identifier, lines 37-38 and 78-79: the record
`(await getMeta(type, language, tmdbId)).meta`. -/
def resolveRecord (env : Env) (type language : String) (tmdbId : JSVal) :
    Except JSVal JSVal := do
  let «meta» ← env.getMeta type language tmdbId
  «meta».prop "meta"

/-- Whether a step completed without throwing. -/
def succeeds (r : Except JSVal JSVal) : Bool :=
  match r with
  | .ok _ => true
  | .error _ => false

/-- The record one loop iteration appends, given the outcome of the identifier
expression: none when the item is dropped. -/
def keptRecord (env : Env) (type language : String) (tmdbId : Except JSVal JSVal) :
    Option JSVal :=
  match tmdbId with
  | .error _ => none
  | .ok id =>
      if id.truthy then
        match resolveRecord env type language id with
        | .ok record => some record
        | .error _ => none
      else none

/-- An item whose identifier expression yields a truthy value: the test
`if (tmdbId)` of lines 36 and 77 passes. -/
def hasTruthyId (listName : ListName) (type : String) (item : JSVal) : Bool :=
  match tmdbIdOf listName type item with
  | .ok id => id.truthy
  | .error _ => false

/-- An item that carries an identifier in the sense of the data model: the
identifier expression yields a value other than `undefined` and `null`. -/
def carriesIdentifier (listName : ListName) (type : String) (item : JSVal) : Bool :=
  match tmdbIdOf listName type item with
  | .ok id => !id.nullish
  | .error _ => false

/-- An item whose identifier expression yields a value that resolves. -/
def resolves (listName : ListName) (env : Env) (type language : String) (item : JSVal) :
    Bool :=
  match tmdbIdOf listName type item with
  | .ok id => succeeds (resolveRecord env type language id)
  | .error _ => false

/-- The relation "`record` is the resolver record of `item`". -/
def RecordOf (listName : ListName) (env : Env) (type language : String) (item record : JSVal) :
    Prop :=
  ∃ id, tmdbIdOf listName type item = .ok id ∧ resolveRecord env type language id = .ok record

/-- The completion `return { metas }`. -/
def metasResult (metas : List JSVal) : Except JSVal JSVal :=
  .ok (.obj [("metas", .arr metas)])

/-- A watchlist item `{ movie: { ids: { tmdb: n } } }`. -/
def movieItem (n : Int) : JSVal :=
  .obj [("movie", .obj [("ids", .obj [("tmdb", .num n)])])]

/-- The watchlist item `{ movie: { ids: { } } }`, without identifier. -/
def movieItemNoId : JSVal :=
  .obj [("movie", .obj [("ids", .obj [])])]

/-- The resolver of the scenarios: 550 resolves to `A`, 551 to `B`, 0 to `Z`,
everything else throws. -/
def demoGetMeta (_type _language : String) (tmdbId : JSVal) : Except JSVal JSVal :=
  match tmdbId with
  | .num 550 => .ok (.obj [("meta", .str "A")])
  | .num 551 => .ok (.obj [("meta", .str "B")])
  | .num 0 => .ok (.obj [("meta", .str "Z")])
  | _ => .error (.error "Error" "not found")

/-- An environment whose list requests all answer with the page `items` and
whose token endpoint answers HTTP 400. -/
def demoEnv (items : List JSVal) : Env where
  TRAKT_CLIENT_ID := some "client"
  TRAKT_CLIENT_SECRET := some "secret"
  TRAKT_REDIRECT_URI := none
  HOST_NAME := none
  get := fun _ _ => .ok (.obj [("data", .arr items)])
  post := fun _ _ _ => .error (.error "Error" "Request failed with status code 400")
  getMeta := demoGetMeta

/-- A recommendation item `{ ids: { tmdb: n } }`. -/
def recommendationItem (n : Int) : JSVal :=
  .obj [("ids", .obj [("tmdb", .num n)])]

/-- Whether both credentials are configured: the negation of the guard of lines
38 and 66. -/
def configured (env : Env) : Bool :=
  present env.TRAKT_CLIENT_ID && present env.TRAKT_CLIENT_SECRET

/-- The URL of the token endpoint. -/
def tokenUrl : String := "https://api.trakt.tv/oauth/token"

/-- The headers of a token request. -/
def jsonHeaders : List (String × JSVal) := [("Content-Type", .str "application/json")]

/-- The redirect URI a token request sends: the argument, else the default. -/
def finalRedirectUri (env : Env) (redirectUri : Option String) : String :=
  if present redirectUri then templateText redirectUri else getRedirectUri env none

/-- The body of the token exchange request. -/
def exchangeBody (env : Env) (code : String) (redirectUri : Option String) : JSVal :=
  .obj [("code", .str code),
        ("client_id", envVal env.TRAKT_CLIENT_ID),
        ("client_secret", envVal env.TRAKT_CLIENT_SECRET),
        ("redirect_uri", .str (finalRedirectUri env redirectUri)),
        ("grant_type", .str "authorization_code")]

/-- The body of the token refresh request. -/
def refreshBody (env : Env) (refreshToken : String) (redirectUri : Option String) : JSVal :=
  .obj [("refresh_token", .str refreshToken),
        ("client_id", envVal env.TRAKT_CLIENT_ID),
        ("client_secret", envVal env.TRAKT_CLIENT_SECRET),
        ("redirect_uri", .str (finalRedirectUri env redirectUri)),
        ("grant_type", .str "refresh_token")]

/-- The value `{ success: false, error: m }`, with the default text in place
of an empty `m`. -/
def failureResult (message : String) (fallback : String) : JSVal :=
  .obj [("success", .bool false), ("error", .str (if message = "" then fallback else message))]

/-- What the `catch` block of a token call completes with for the caught value
`err`: the failure value built from `err.message`, or the `TypeError` of reading
`message` on `undefined` or `null`. -/
def caughtResult (err : JSVal) (fallback : String) : Except JSVal JSVal :=
  match err.prop "message" with
  | .ok m => .ok (.obj [("success", .bool false), ("error", m.orElse (.str fallback))])
  | .error e => .error e

/-- Whether a string ends in a slash. -/
def endsInSlash (s : String) : Bool :=
  s.toList.getLast? = some '/'

/-- The four canonical `(id, type)` keys, in declaration order. -/
def canonicalKeys : List (String × String) :=
  [("trakt.watchlist", "movie"), ("trakt.watchlist", "series"),
   ("trakt.recommendations", "movie"), ("trakt.recommendations", "series")]

/-- The copy of an entry with `enabled` and `showInHome` set and the other
fields kept when its `(id, type)` is a canonical key; the entry itself otherwise. -/
def enableIfCanonical (c : CatalogConfig) : CatalogConfig :=
  if (c.id, c.type) ∈ canonicalKeys then
    { id := c.id, type := c.type, name := c.name, enabled := true, showInHome := true }
  else c

/-- The reference definition of the merge, after the wording of the claim: the
entries of `l` in their order, each entry with a canonical key replaced by its
enabled copy, followed by the canonical entries whose `(id, type)` key does not
occur in `l`, in declaration order. -/
def mergeReference (l : List CatalogConfig) : List CatalogConfig :=
  l.map enableIfCanonical
    ++ traktCatalogsToAdd.filter fun tc =>
      decide ((tc.id, tc.type) ∉ l.map fun c => (c.id, c.type))

/-- Whether a completion is a rejection with `undefined` or `null`. -/
def rejectedNullish (r : Except JSVal JSVal) : Bool :=
  match r with
  | .ok _ => false
  | .error err => err.nullish

/-- An environment with both credentials set whose token endpoint rejects
with `null`. -/
def nullRejectingEnv : Env where
  TRAKT_CLIENT_ID := some "client"
  TRAKT_CLIENT_SECRET := some "secret"
  TRAKT_REDIRECT_URI := none
  HOST_NAME := none
  get := fun _ _ => .ok (.obj [("data", .arr [])])
  post := fun _ _ _ => .error .null
  getMeta := demoGetMeta

/-! ## The list synchronisation: lemmas -/

theorem watchlistLoop_snd (env : Env) (type language : String) (items metas : List JSVal) :
    (watchlistLoop env type language items metas).2 =
      .ok (metas ++ items.filterMap fun item =>
        keptRecord env type language (watchlistTmdbId type item)) := by
  induction items generalizing metas with
  | nil => simp [watchlistLoop, pure, Js.ret]
  | cons item rest ih =>
    rw [watchlistLoop]
    simp only [bind, Js.andThen, Js.tryCatch, Js.lift, pure, Js.ret, callGetMeta, Js.emit,
      consoleError]
    cases hid : watchlistTmdbId type item with
    | error e => simp [ih, keptRecord, hid]
    | ok id =>
      cases ht : id.truthy with
      | false => simp [ih, keptRecord, hid, ht]
      | true =>
        cases hm : env.getMeta type language id with
        | error e => simp [ih, keptRecord, hid, ht, resolveRecord, hm, bind, Except.bind]
        | ok m =>
          cases hp : m.prop "meta" with
          | error e => simp [ih, keptRecord, hid, ht, resolveRecord, hm, hp, bind, Except.bind]
          | ok r => simp [ih, keptRecord, hid, ht, resolveRecord, hm, hp, bind, Except.bind]

theorem recommendationsLoop_snd (env : Env) (type language : String)
    (items metas : List JSVal) :
    (recommendationsLoop env type language items metas).2 =
      .ok (metas ++ items.filterMap fun item =>
        keptRecord env type language (recommendationTmdbId item)) := by
  induction items generalizing metas with
  | nil => simp [recommendationsLoop, pure, Js.ret]
  | cons item rest ih =>
    rw [recommendationsLoop]
    simp only [bind, Js.andThen, Js.tryCatch, Js.lift, pure, Js.ret, callGetMeta, Js.emit,
      consoleError]
    cases hid : recommendationTmdbId item with
    | error e => simp [ih, keptRecord, hid]
    | ok id =>
      cases ht : id.truthy with
      | false => simp [ih, keptRecord, hid, ht]
      | true =>
        cases hm : env.getMeta type language id with
        | error e => simp [ih, keptRecord, hid, ht, resolveRecord, hm, bind, Except.bind]
        | ok m =>
          cases hp : m.prop "meta" with
          | error e => simp [ih, keptRecord, hid, ht, resolveRecord, hm, hp, bind, Except.bind]
          | ok r => simp [ih, keptRecord, hid, ht, resolveRecord, hm, hp, bind, Except.bind]

theorem watchlist_url_eq (type : String) :
    "https://api.trakt.tv/sync/watchlist/" ++ (if type = "movie" then "movies" else "shows")
      ++ "?limit=" ++ toString (20 : Int) ++ "&extended=full" = listUrl .watchlist type := by
  unfold listUrl
  split <;> rfl

theorem recommendations_url_eq (type : String) :
    "https://api.trakt.tv/recommendations/" ++ (if type = "movie" then "movies" else "shows")
      ++ "?limit=" ++ toString (20 : Int) ++ "&extended=full"
      = listUrl .recommendations type := by
  unfold listUrl
  split <;> rfl

theorem Js.andThen_snd {α β : Type} (m : Js α) (f : α → Js β) :
    (Js.andThen m f).2 = match m.2 with
      | .ok a => (f a).2
      | .error e => .error e := by
  rcases m with ⟨t, r⟩
  cases r <;> rfl

theorem Js.tryCatch_snd {α : Type} (m : Js α) (h : JSVal → Js α) :
    (Js.tryCatch m h).2 = match m.2 with
      | .ok a => .ok a
      | .error e => (h e).2 := by
  rcases m with ⟨t, r⟩
  cases r <;> rfl

theorem sync_snd (listName : ListName) (env : Env) (type language : String) (page : Int)
    (genre : JSVal) (accessToken : Option String) (items : List JSVal)
    (htoken : present accessToken = true)
    (hfetch : Fetched listName env type accessToken items) :
    (sync listName env type language page genre accessToken).2 =
      metasResult (items.filterMap fun item =>
        keptRecord env type language (tmdbIdOf listName type item)) := by
  obtain ⟨response, hget, hdata⟩ := hfetch
  cases listName with
  | watchlist =>
    simp only [sync, getTraktWatchlist, htoken, watchlist_url_eq]
    simp only [listHeaders] at hget
    simp [bind, Js.andThen_snd, Js.tryCatch_snd, Js.lift, pure, Js.ret, httpGet, Js.emit, hget,
      hdata, JSVal.orElse, JSVal.truthy, JSVal.iterate, watchlistLoop_snd, metasResult, tmdbIdOf]
  | recommendations =>
    simp only [sync, getTraktRecommendations, htoken, recommendations_url_eq]
    simp only [listHeaders] at hget
    simp [bind, Js.andThen_snd, Js.tryCatch_snd, Js.lift, pure, Js.ret, httpGet, Js.emit, hget,
      hdata, JSVal.orElse, JSVal.truthy, JSVal.iterate, recommendationsLoop_snd, metasResult,
      tmdbIdOf]

theorem Js.andThen_head {α β : Type} (m : Js α) (f : α → Js β) (ev : Event)
    (h : m.1.head? = some ev) : (Js.andThen m f).1.head? = some ev := by
  rcases m with ⟨t, r⟩
  cases t with
  | nil => simp at h
  | cons x xs => cases r <;> simpa [Js.andThen] using h

theorem Js.tryCatch_head {α : Type} (m : Js α) (hd : JSVal → Js α) (ev : Event)
    (h : m.1.head? = some ev) : (Js.tryCatch m hd).1.head? = some ev := by
  rcases m with ⟨t, r⟩
  cases t with
  | nil => simp at h
  | cons x xs => cases r <;> simpa [Js.tryCatch] using h

theorem filterMap_eraseIdx_of_none {α β : Type} (f : α → Option β) :
    ∀ (l : List α) (k : Nat) (x : α), l[k]? = some x → f x = none →
      l.filterMap f = (l.eraseIdx k).filterMap f
  | [], _, _, h, _ => by simp at h
  | a :: l, 0, x, h, hx => by
      have hax : a = x := by simpa using h
      subst hax
      simp [List.filterMap_cons, hx]
  | a :: l, k + 1, x, h, hx => by
      have h2 : l[k]? = some x := by simpa using h
      simp [List.filterMap_cons, filterMap_eraseIdx_of_none f l k x h2 hx]

theorem forall₂_filter_filterMap {α β : Type} (R : α → β → Prop) (p : α → Bool)
    (f : α → Option β) :
    ∀ (l : List α), (∀ x ∈ l, p x = true → ∃ r, f x = some r ∧ R x r) →
      (∀ x ∈ l, p x = false → f x = none) →
      List.Forall₂ R (l.filter p) (l.filterMap f)
  | [], _, _ => by simp
  | a :: l, hyes, hno => by
      have ih := forall₂_filter_filterMap R p f l
        (fun x hx => hyes x (List.mem_cons_of_mem _ hx))
        (fun x hx => hno x (List.mem_cons_of_mem _ hx))
      cases hp : p a with
      | false =>
        have hfa := hno a (List.mem_cons_self _ _) hp
        simpa [List.filter_cons, hp, List.filterMap_cons, hfa] using ih
      | true =>
        obtain ⟨r, hfa, hr⟩ := hyes a (List.mem_cons_self _ _) hp
        simpa [List.filter_cons, hp, List.filterMap_cons, hfa] using List.Forall₂.cons hr ih

theorem length_filterMap_eq_countP {α β : Type} (f : α → Option β) (l : List α) :
    (l.filterMap f).length = l.countP fun x => (f x).isSome := by
  induction l with
  | nil => simp
  | cons a l ih =>
    cases h : f a with
    | none => simp [List.filterMap_cons, h, ih]
    | some b => simp [List.filterMap_cons, h, ih]

theorem keptRecord_eq_some (listName : ListName) (env : Env) (type language : String)
    (item record : JSVal)
    (h : keptRecord env type language (tmdbIdOf listName type item) = some record) :
    hasTruthyId listName type item = true ∧ RecordOf listName env type language item record := by
  unfold keptRecord at h
  unfold hasTruthyId RecordOf
  cases hid : tmdbIdOf listName type item with
  | error e => simp [hid] at h
  | ok id =>
    simp only [hid] at h
    cases ht : id.truthy with
    | false => simp [ht] at h
    | true =>
      simp only [ht, if_true] at h
      cases hr : resolveRecord env type language id with
      | error e => simp [hr] at h
      | ok r =>
        simp only [hr, Option.some.injEq] at h
        subst h
        exact ⟨ht, id, rfl, hr⟩

theorem keptRecord_isSome (listName : ListName) (env : Env) (type language : String)
    (item : JSVal) :
    (keptRecord env type language (tmdbIdOf listName type item)).isSome =
      (hasTruthyId listName type item && resolves listName env type language item) := by
  unfold keptRecord hasTruthyId resolves
  cases hid : tmdbIdOf listName type item with
  | error e => simp
  | ok id =>
    cases ht : id.truthy with
    | false => simp [ht]
    | true =>
      cases hr : resolveRecord env type language id <;> simp [succeeds, ht, hr]

theorem metasResult_injective (a b : List JSVal) (h : metasResult a = metasResult b) : a = b := by
  unfold metasResult at h
  injection h with h
  injection h with h
  injection h with h _
  injection h with _ h
  injection h

/-! ## The list synchronisation: theorems -/

/-- C1 (as amended): with a token and a fetched page, if the resolver throws for
the item at position `k` and every other item that passes the identifier test
resolves, the call does not throw and its metas are, one for one and in page
order, the resolver records of the items other than `k` that pass the
identifier test. -/
theorem sync_isolates_failing_item (listName : ListName) (env : Env) (type language : String)
    (page : Int) (genre : JSVal) (accessToken : Option String) (items : List JSVal) (k : Nat)
    (itemK : JSVal)
    (htoken : present accessToken = true)
    (hfetch : Fetched listName env type accessToken items)
    (hk : items[k]? = some itemK)
    (hfails : ∃ id err, tmdbIdOf listName type itemK = .ok id ∧
      env.getMeta type language id = .error err)
    (hothers : ∀ i item, i ≠ k → items[i]? = some item →
      hasTruthyId listName type item = true → resolves listName env type language item = true) :
    ∃ metas, (sync listName env type language page genre accessToken).2 = metasResult metas ∧
      List.Forall₂ (RecordOf listName env type language)
        ((items.eraseIdx k).filter (hasTruthyId listName type)) metas := by
  refine ⟨_, sync_snd listName env type language page genre accessToken items htoken hfetch, ?_⟩
  have hnone : keptRecord env type language (tmdbIdOf listName type itemK) = none := by
    obtain ⟨id, err, hid, herr⟩ := hfails
    unfold keptRecord
    simp only [hid]
    split
    · simp [resolveRecord, herr, bind, Except.bind]
    · rfl
  rw [filterMap_eraseIdx_of_none _ items k itemK hk hnone]
  apply forall₂_filter_filterMap
  · intro x hx hp
    obtain ⟨i, hik, hix⟩ := List.mem_eraseIdx_iff_getElem?.1 hx
    have hres := hothers i x hik hix hp
    have hsome : (keptRecord env type language (tmdbIdOf listName type x)).isSome = true := by
      rw [keptRecord_isSome, hp, hres]; rfl
    obtain ⟨r, hr⟩ := Option.isSome_iff_exists.1 hsome
    exact ⟨r, hr, (keptRecord_eq_some listName env type language x r hr).2⟩
  · intro x _ hp
    have hsome := keptRecord_isSome listName env type language x
    rw [hp] at hsome
    simpa using hsome

/-- C1, witness: the page `[550, 7, 551]` whose second item makes the resolver throw. -/
theorem sync_isolates_failing_item_witness :
    ∃ metas, (sync .watchlist (demoEnv [movieItem 550, movieItem 7, movieItem 551]) "movie" "en"
        1 .undefined (some "token")).2 = metasResult metas ∧
      List.Forall₂
        (RecordOf .watchlist (demoEnv [movieItem 550, movieItem 7, movieItem 551]) "movie" "en")
        (([movieItem 550, movieItem 7, movieItem 551].eraseIdx 1).filter
          (hasTruthyId .watchlist "movie")) metas :=
  sync_isolates_failing_item .watchlist (demoEnv [movieItem 550, movieItem 7, movieItem 551])
    "movie" "en" 1 .undefined (some "token") [movieItem 550, movieItem 7, movieItem 551] 1
    (movieItem 7) rfl ⟨_, rfl, rfl⟩ rfl ⟨.num 7, _, rfl, rfl⟩
    (fun i item hi hitem _ =>
      match i, hi, hitem with
      | 0, _, hitem => by
          have h : movieItem 550 = item := by simpa using hitem
          subst h; rfl
      | 1, hi, _ => absurd rfl hi
      | 2, _, hitem => by
          have h : movieItem 551 = item := by simpa using hitem
          subst h; rfl
      | n + 3, _, hitem => by simp at hitem)

/-- C1, counterexample: on the page `[0, 7]` the resolver throws for the second
item only and succeeds on the first, which carries the identifier `0`; the call
returns, but its metas hold no record for the first item. -/
theorem sync_omits_record_of_identifier_zero :
    (∃ id err, tmdbIdOf .watchlist "movie" (movieItem 7) = .ok id ∧
      (demoEnv [movieItem 0, movieItem 7]).getMeta "movie" "en" id = .error err) ∧
    carriesIdentifier .watchlist "movie" (movieItem 0) = true ∧
    resolves .watchlist (demoEnv [movieItem 0, movieItem 7]) "movie" "en" (movieItem 0)
      = true ∧
    (sync .watchlist (demoEnv [movieItem 0, movieItem 7]) "movie" "en" 1 .undefined
        (some "token")).2 = metasResult [] ∧
    ¬ ∃ metas, (sync .watchlist (demoEnv [movieItem 0, movieItem 7]) "movie" "en" 1
          .undefined (some "token")).2 = metasResult metas ∧
        ∀ i item, i ≠ 1 → [movieItem 0, movieItem 7][i]? = some item →
          carriesIdentifier .watchlist "movie" item = true →
          ∃ record, RecordOf .watchlist (demoEnv [movieItem 0, movieItem 7]) "movie" "en"
            item record ∧ record ∈ metas := by
  refine ⟨⟨.num 7, _, rfl, rfl⟩, rfl, rfl, rfl, ?_⟩
  rintro ⟨metas, hres, hall⟩
  have hrun : (sync .watchlist (demoEnv [movieItem 0, movieItem 7]) "movie" "en" 1
      .undefined (some "token")).2 = metasResult [] := rfl
  rw [hrun] at hres
  have hnil := metasResult_injective _ _ hres
  subst hnil
  obtain ⟨record, _, hmem⟩ := hall 0 (movieItem 0) (by decide) rfl rfl
  simp at hmem

/-- C2 (as amended): with a token and a fetched page, the call returns metas
that are, one for one and in page order, the resolver records of the items
whose identifier passes the test `if (tmdbId)` (for a number: it is not 0) and
whose resolution succeeds; every other item is dropped, so the length of the
metas is the number of those items. -/
theorem sync_length_counts_kept_items (listName : ListName) (env : Env)
    (type language : String) (page : Int) (genre : JSVal) (accessToken : Option String)
    (items : List JSVal)
    (htoken : present accessToken = true)
    (hfetch : Fetched listName env type accessToken items) :
    ∃ metas, (sync listName env type language page genre accessToken).2 = metasResult metas ∧
      metas.length = items.countP (fun item =>
        hasTruthyId listName type item && resolves listName env type language item) ∧
      List.Forall₂ (RecordOf listName env type language)
        (items.filter fun item =>
          hasTruthyId listName type item && resolves listName env type language item) metas ∧
      ∀ item n, tmdbIdOf listName type item = .ok (.num n) →
        (hasTruthyId listName type item = true ↔ n ≠ 0) := by
  refine ⟨_, sync_snd listName env type language page genre accessToken items htoken hfetch,
    ?_, ?_, ?_⟩
  · rw [length_filterMap_eq_countP]
    congr 1
    funext item
    exact keptRecord_isSome listName env type language item
  · apply forall₂_filter_filterMap
    · intro x _ hp
      rw [← keptRecord_isSome] at hp
      obtain ⟨r, hr⟩ := Option.isSome_iff_exists.1 hp
      exact ⟨r, hr, (keptRecord_eq_some listName env type language x r hr).2⟩
    · intro x _ hp
      rw [← keptRecord_isSome] at hp
      simpa using hp
  · intro item n hid
    simp [hasTruthyId, hid, JSVal.truthy]

/-- C2, witness: the scenario page `[550, no id, 551]` with the resolver
`550 -> A`, `551 -> B` yields `[A, B]`. -/
theorem sync_length_counts_kept_items_witness :
    (sync .watchlist (demoEnv [movieItem 550, movieItemNoId, movieItem 551]) "movie" "en" 1
        .undefined (some "token")).2 = metasResult [.str "A", .str "B"] ∧
    ∃ metas, (sync .watchlist (demoEnv [movieItem 550, movieItemNoId, movieItem 551]) "movie"
        "en" 1 .undefined (some "token")).2 = metasResult metas ∧
      metas.length = [movieItem 550, movieItemNoId, movieItem 551].countP (fun item =>
        hasTruthyId .watchlist "movie" item &&
          resolves .watchlist (demoEnv [movieItem 550, movieItemNoId, movieItem 551]) "movie"
            "en" item) :=
  ⟨rfl, (sync_length_counts_kept_items .watchlist
    (demoEnv [movieItem 550, movieItemNoId, movieItem 551]) "movie" "en" 1 .undefined
    (some "token") [movieItem 550, movieItemNoId, movieItem 551] rfl ⟨_, rfl, rfl⟩).imp
    fun _ h => ⟨h.1, h.2.1⟩⟩

/-- C2, counterexample: the recommendations page `[{ ids: { tmdb: 0 } }]` has one
item that carries an identifier and resolves, yet the metas are empty. -/
theorem sync_length_misses_identifier_zero :
    ¬ ∃ metas, (sync .recommendations (demoEnv [recommendationItem 0]) "movie" "en" 1
        .undefined (some "token")).2 = metasResult metas ∧
      metas.length = [recommendationItem 0].countP (fun item =>
        carriesIdentifier .recommendations "movie" item &&
          resolves .recommendations (demoEnv [recommendationItem 0]) "movie" "en" item) := by
  rintro ⟨metas, hres, hlen⟩
  have hrun : (sync .recommendations (demoEnv [recommendationItem 0]) "movie" "en" 1
      .undefined (some "token")).2 = metasResult [] := rfl
  rw [hrun] at hres
  have hnil := metasResult_injective _ _ hres
  subst hnil
  have hcount : [recommendationItem 0].countP (fun item =>
      carriesIdentifier .recommendations "movie" item &&
        resolves .recommendations (demoEnv [recommendationItem 0]) "movie" "en" item) = 1 := rfl
  rw [hcount] at hlen
  simp at hlen

/-- C3: with a token and a fetched page, the metas are the resolver records of
a subsequence of the raw items, record for item, in the order of the page. -/
theorem sync_preserves_order (listName : ListName) (env : Env) (type language : String)
    (page : Int) (genre : JSVal) (accessToken : Option String) (items : List JSVal)
    (htoken : present accessToken = true)
    (hfetch : Fetched listName env type accessToken items) :
    ∃ metas kept, (sync listName env type language page genre accessToken).2
        = metasResult metas ∧
      kept.Sublist items ∧ List.Forall₂ (RecordOf listName env type language) kept metas := by
  refine ⟨_, items.filter (fun item =>
      (keptRecord env type language (tmdbIdOf listName type item)).isSome),
    sync_snd listName env type language page genre accessToken items htoken hfetch,
    List.filter_sublist _, ?_⟩
  apply forall₂_filter_filterMap
  · intro x _ hp
    obtain ⟨r, hr⟩ := Option.isSome_iff_exists.1 hp
    exact ⟨r, hr, (keptRecord_eq_some listName env type language x r hr).2⟩
  · intro x _ hp
    simpa using hp

/-- C3, witness: the recommendations page `[551, 7, 550]` keeps `551` before `550`. -/
theorem sync_preserves_order_witness :
    ∃ metas kept, (sync .recommendations
        (demoEnv [recommendationItem 551, recommendationItem 7, recommendationItem 550]) "series"
        "en" 2 .undefined (some "token")).2 = metasResult metas ∧
      kept.Sublist [recommendationItem 551, recommendationItem 7, recommendationItem 550] ∧
      List.Forall₂ (RecordOf .recommendations
        (demoEnv [recommendationItem 551, recommendationItem 7, recommendationItem 550]) "series"
        "en") kept metas :=
  sync_preserves_order .recommendations
    (demoEnv [recommendationItem 551, recommendationItem 7, recommendationItem 550]) "series"
    "en" 2 .undefined (some "token")
    [recommendationItem 551, recommendationItem 7, recommendationItem 550] rfl ⟨_, rfl, rfl⟩

/-- C8: without an access token (missing or empty) both list functions throw
`Trakt access token not provided` and issue no effect at all: no HTTP request and
no resolver call. -/
theorem sync_requires_token (listName : ListName) (env : Env) (type language : String)
    (page : Int) (genre : JSVal) (accessToken : Option String)
    (htoken : present accessToken = false) :
    sync listName env type language page genre accessToken
      = ([], .error (.error "Error" "Trakt access token not provided")) := by
  cases listName <;> simp [sync, getTraktWatchlist, getTraktRecommendations, htoken, Js.throw]

/-- C8, witness: the empty token on the watchlist. -/
theorem sync_requires_token_witness :
    present (some "") = false ∧
    sync .watchlist (demoEnv [movieItem 550]) "movie" "en" 1 .undefined (some "")
      = ([], .error (.error "Error" "Trakt access token not provided")) :=
  ⟨rfl, sync_requires_token .watchlist (demoEnv [movieItem 550]) "movie" "en" 1 .undefined
    (some "") rfl⟩

/-- C10: the page number has no effect. For any two pages the call is the same
computation (same effects, same completion), and with a token its first effect is
the GET of the list URL with `limit=20&extended=full` and the three headers. -/
theorem page_has_no_effect (listName : ListName) (env : Env) (type language : String)
    (p q : Int) (genre : JSVal) (accessToken : Option String) :
    sync listName env type language p genre accessToken
      = sync listName env type language q genre accessToken ∧
    (sync listName env type language p genre accessToken).1.head?
      = if present accessToken then
          some (.httpGet (listUrl listName type) (listHeaders env (templateText accessToken)))
        else none := by
  refine ⟨by cases listName <;> rfl, ?_⟩
  cases htoken : present accessToken with
  | false => simp [sync_requires_token listName env type language p genre accessToken htoken]
  | true =>
    cases listName with
    | watchlist =>
      simp only [sync, getTraktWatchlist, htoken, watchlist_url_eq]
      apply Js.tryCatch_head
      apply Js.andThen_head
      simp [httpGet, Js.emit, listHeaders]
    | recommendations =>
      simp only [sync, getTraktRecommendations, htoken, recommendations_url_eq]
      apply Js.tryCatch_head
      apply Js.andThen_head
      simp [httpGet, Js.emit, listHeaders]

/-! ## The session functions -/

theorem prop_error_message (v : JSVal) (key : String) (e : JSVal)
    (h : v.prop key = .error e) : ∃ m, e.prop "message" = .ok m := by
  cases v <;> simp [JSVal.prop, JSVal.typeError] at h <;> subst h <;> exact ⟨_, rfl⟩

theorem caughtResult_succeeds (err : JSVal) (fallback : String)
    (h : ∃ m, err.prop "message" = .ok m) : succeeds (caughtResult err fallback) = true := by
  obtain ⟨m, hm⟩ := h
  simp [caughtResult, hm, succeeds]

theorem caughtResult_message (err : JSVal) (m fallback : String)
    (h : err.prop "message" = .ok (.str m)) :
    caughtResult err fallback = .ok (failureResult m fallback) := by
  by_cases hm : m = "" <;> simp [caughtResult, h, failureResult, JSVal.orElse, JSVal.truthy, hm]

theorem getTraktAccessToken_snd (env : Env) (code : String) (redirectUri : Option String)
    (hconf : configured env = true) :
    (getTraktAccessToken env code redirectUri).2 =
      match env.post tokenUrl (exchangeBody env code redirectUri) jsonHeaders with
      | .ok response =>
          (match response.prop "data" with
          | .ok data => .ok (data.orElse response)
          | .error err => caughtResult err "Error authenticating with Trakt")
      | .error err => caughtResult err "Error authenticating with Trakt" := by
  simp only [configured, Bool.and_eq_true] at hconf
  simp only [getTraktAccessToken, hconf.1, hconf.2, tokenUrl, exchangeBody, jsonHeaders,
    finalRedirectUri, caughtResult]
  cases hpost : env.post _ _ _ with
  | error err =>
    cases hm : err.prop "message" <;>
      simp [bind, Js.andThen_snd, Js.tryCatch_snd, httpPost, Js.emit, consoleError, Js.lift,
        pure, Js.ret, hpost, hm]
  | ok response =>
    cases hd : response.prop "data" with
    | ok d =>
      simp [bind, Js.andThen_snd, Js.tryCatch_snd, httpPost, Js.emit, consoleError, Js.lift,
        pure, Js.ret, hpost, hd]
    | error err =>
      cases hm : err.prop "message" <;>
        simp [bind, Js.andThen_snd, Js.tryCatch_snd, httpPost, Js.emit, consoleError, Js.lift,
          pure, Js.ret, hpost, hd, hm]

theorem refreshTraktAccessToken_snd (env : Env) (refreshToken : String)
    (redirectUri : Option String) (hconf : configured env = true) :
    (refreshTraktAccessToken env refreshToken redirectUri).2 =
      match env.post tokenUrl (refreshBody env refreshToken redirectUri) jsonHeaders with
      | .ok response =>
          (match response.prop "data" with
          | .ok data => .ok (data.orElse response)
          | .error err => caughtResult err "Error refreshing Trakt token")
      | .error err => caughtResult err "Error refreshing Trakt token" := by
  simp only [configured, Bool.and_eq_true] at hconf
  simp only [refreshTraktAccessToken, hconf.1, hconf.2, tokenUrl, refreshBody, jsonHeaders,
    finalRedirectUri, caughtResult]
  cases hpost : env.post _ _ _ with
  | error err =>
    cases hm : err.prop "message" <;>
      simp [bind, Js.andThen_snd, Js.tryCatch_snd, httpPost, Js.emit, consoleError, Js.lift,
        pure, Js.ret, hpost, hm]
  | ok response =>
    cases hd : response.prop "data" with
    | ok d =>
      simp [bind, Js.andThen_snd, Js.tryCatch_snd, httpPost, Js.emit, consoleError, Js.lift,
        pure, Js.ret, hpost, hd]
    | error err =>
      cases hm : err.prop "message" <;>
        simp [bind, Js.andThen_snd, Js.tryCatch_snd, httpPost, Js.emit, consoleError, Js.lift,
          pure, Js.ret, hpost, hd, hm]

theorem getTraktAccessToken_head (env : Env) (code : String) (redirectUri : Option String)
    (hconf : configured env = true) :
    (getTraktAccessToken env code redirectUri).1.head?
      = some (.httpPost tokenUrl (exchangeBody env code redirectUri) jsonHeaders) := by
  simp only [configured, Bool.and_eq_true] at hconf
  simp only [getTraktAccessToken, hconf.1, hconf.2]
  apply Js.tryCatch_head
  apply Js.andThen_head
  simp [httpPost, Js.emit, tokenUrl, exchangeBody, jsonHeaders, finalRedirectUri]

theorem refreshTraktAccessToken_head (env : Env) (refreshToken : String)
    (redirectUri : Option String) (hconf : configured env = true) :
    (refreshTraktAccessToken env refreshToken redirectUri).1.head?
      = some (.httpPost tokenUrl (refreshBody env refreshToken redirectUri) jsonHeaders) := by
  simp only [configured, Bool.and_eq_true] at hconf
  simp only [refreshTraktAccessToken, hconf.1, hconf.2]
  apply Js.tryCatch_head
  apply Js.andThen_head
  simp [httpPost, Js.emit, tokenUrl, refreshBody, jsonHeaders, finalRedirectUri]

theorem getTraktAccessToken_unconfigured (env : Env) (code : String)
    (redirectUri : Option String) (hconf : configured env = false) :
    getTraktAccessToken env code redirectUri
      = ([], .error (.error "Error" "TRAKT_CLIENT_ID ou TRAKT_CLIENT_SECRET não configurados")) := by
  simp only [configured, Bool.and_eq_false_iff] at hconf
  rcases hconf with h | h <;> simp [getTraktAccessToken, h, Js.throw]

theorem refreshTraktAccessToken_unconfigured (env : Env) (refreshToken : String)
    (redirectUri : Option String) (hconf : configured env = false) :
    refreshTraktAccessToken env refreshToken redirectUri
      = ([], .error (.error "Error" "TRAKT_CLIENT_ID or TRAKT_CLIENT_SECRET not configured")) := by
  simp only [configured, Bool.and_eq_false_iff] at hconf
  rcases hconf with h | h <;> simp [refreshTraktAccessToken, h, Js.throw]

theorem caughtResult_succeeds_eq (err : JSVal) (fallback : String) :
    succeeds (caughtResult err fallback) = !err.nullish := by
  cases err <;> simp [caughtResult, JSVal.prop, JSVal.typeError, JSVal.nullish, succeeds]

theorem getTraktAccessToken_throws_iff (env : Env) (code : String)
    (redirectUri : Option String) :
    succeeds (getTraktAccessToken env code redirectUri).2 = false ↔
      configured env = false ∨
        rejectedNullish (env.post tokenUrl (exchangeBody env code redirectUri) jsonHeaders)
          = true := by
  cases hconf : configured env with
  | false => simp [getTraktAccessToken_unconfigured env code redirectUri hconf, succeeds]
  | true =>
    rw [getTraktAccessToken_snd env code redirectUri hconf]
    cases hpost : env.post tokenUrl (exchangeBody env code redirectUri) jsonHeaders with
    | error err => simp [caughtResult_succeeds_eq, rejectedNullish]
    | ok response =>
      cases hd : response.prop "data" with
      | ok d => simp [hd, succeeds, rejectedNullish]
      | error err =>
        have hok := caughtResult_succeeds err "Error authenticating with Trakt"
          (prop_error_message _ _ _ hd)
        simp [hd, hok, rejectedNullish]

theorem refreshTraktAccessToken_throws_iff (env : Env) (refreshToken : String)
    (redirectUri : Option String) :
    succeeds (refreshTraktAccessToken env refreshToken redirectUri).2 = false ↔
      configured env = false ∨
        rejectedNullish (env.post tokenUrl (refreshBody env refreshToken redirectUri)
          jsonHeaders) = true := by
  cases hconf : configured env with
  | false => simp [refreshTraktAccessToken_unconfigured env refreshToken redirectUri hconf,
      succeeds]
  | true =>
    rw [refreshTraktAccessToken_snd env refreshToken redirectUri hconf]
    cases hpost : env.post tokenUrl (refreshBody env refreshToken redirectUri) jsonHeaders with
    | error err => simp [caughtResult_succeeds_eq, rejectedNullish]
    | ok response =>
      cases hd : response.prop "data" with
      | ok d => simp [hd, succeeds, rejectedNullish]
      | error err =>
        have hok := caughtResult_succeeds err "Error refreshing Trakt token"
          (prop_error_message _ _ _ hd)
        simp [hd, hok, rejectedNullish]

/-- C7 (as amended): the exchange `getTraktAccessToken` throws exactly when the
client id or the client secret is not configured, or the token POST is rejected
with `undefined` or `null` (reading `err.message` in the `catch` block then
throws). When not configured it issues no effect (no HTTP call); with both
configured its first effect is the token POST, and a POST failure that carries
the message `m` makes it return the value `success: false, error: m` (the
default text for an empty `m`). The refresh `refreshTraktAccessToken` obeys the
same contract. -/
theorem token_calls_throw_iff_unconfigured_or_nullish (env : Env)
    (code refreshToken : String) (redirectUri : Option String) :
    ((succeeds (getTraktAccessToken env code redirectUri).2 = false ↔
        configured env = false ∨
          rejectedNullish (env.post tokenUrl (exchangeBody env code redirectUri) jsonHeaders)
            = true) ∧
      (configured env = false → (getTraktAccessToken env code redirectUri).1 = []) ∧
      (configured env = true → (getTraktAccessToken env code redirectUri).1.head?
        = some (.httpPost tokenUrl (exchangeBody env code redirectUri) jsonHeaders)) ∧
      (configured env = true → ∀ err m,
        env.post tokenUrl (exchangeBody env code redirectUri) jsonHeaders = .error err →
        err.prop "message" = .ok (.str m) →
        (getTraktAccessToken env code redirectUri).2
          = .ok (failureResult m "Error authenticating with Trakt"))) ∧
    ((succeeds (refreshTraktAccessToken env refreshToken redirectUri).2 = false ↔
        configured env = false ∨
          rejectedNullish (env.post tokenUrl (refreshBody env refreshToken redirectUri)
            jsonHeaders) = true) ∧
      (configured env = false → (refreshTraktAccessToken env refreshToken redirectUri).1 = []) ∧
      (configured env = true → (refreshTraktAccessToken env refreshToken redirectUri).1.head?
        = some (.httpPost tokenUrl (refreshBody env refreshToken redirectUri) jsonHeaders)) ∧
      (configured env = true → ∀ err m,
        env.post tokenUrl (refreshBody env refreshToken redirectUri) jsonHeaders = .error err →
        err.prop "message" = .ok (.str m) →
        (refreshTraktAccessToken env refreshToken redirectUri).2
          = .ok (failureResult m "Error refreshing Trakt token"))) := by
  refine ⟨⟨getTraktAccessToken_throws_iff env code redirectUri, ?_,
      getTraktAccessToken_head env code redirectUri, ?_⟩,
    ⟨refreshTraktAccessToken_throws_iff env refreshToken redirectUri, ?_,
      refreshTraktAccessToken_head env refreshToken redirectUri, ?_⟩⟩
  · intro hconf
    rw [getTraktAccessToken_unconfigured env code redirectUri hconf]
  · intro hconf err m hpost hm
    rw [getTraktAccessToken_snd env code redirectUri hconf, hpost]
    exact caughtResult_message err m _ hm
  · intro hconf
    rw [refreshTraktAccessToken_unconfigured env refreshToken redirectUri hconf]
  · intro hconf err m hpost hm
    rw [refreshTraktAccessToken_snd env refreshToken redirectUri hconf, hpost]
    exact caughtResult_message err m _ hm

/-- C7, witness: with both credentials set and a token endpoint that answers
HTTP 400, the exchange returns the failure value carrying the message. -/
theorem token_calls_throw_iff_unconfigured_or_nullish_witness :
    configured (demoEnv []) = true ∧
    (getTraktAccessToken (demoEnv []) "code" none).2
      = .ok (failureResult "Request failed with status code 400"
          "Error authenticating with Trakt") ∧
    (refreshTraktAccessToken (demoEnv []) "refresh" none).2
      = .ok (failureResult "Request failed with status code 400"
          "Error refreshing Trakt token") :=
  ⟨rfl,
   (token_calls_throw_iff_unconfigured_or_nullish (demoEnv []) "code" "refresh" none).1.2.2.2
      rfl _ _ rfl rfl,
   (token_calls_throw_iff_unconfigured_or_nullish (demoEnv []) "code" "refresh" none).2.2.2.2
      rfl _ _ rfl rfl⟩

/-- C7, counterexample: with both credentials set and a token POST rejected
with `null`, the exchange and the refresh throw the `TypeError` of reading
`message` on `null`, after issuing the POST: a throw that is not caused by a
missing credential. -/
theorem token_call_throws_on_null_rejection :
    configured nullRejectingEnv = true ∧
    (getTraktAccessToken nullRejectingEnv "code" none).2
      = .error (.error "TypeError" "Cannot read properties of null (reading \x27message\x27)") ∧
    (refreshTraktAccessToken nullRejectingEnv "refresh" none).2
      = .error (.error "TypeError" "Cannot read properties of null (reading \x27message\x27)") ∧
    ¬ (succeeds (getTraktAccessToken nullRejectingEnv "code" none).2 = false ↔
        configured nullRejectingEnv = false) ∧
    ¬ (succeeds (refreshTraktAccessToken nullRejectingEnv "refresh" none).2 = false ↔
        configured nullRejectingEnv = false) := by
  refine ⟨rfl, rfl, rfl, ?_, ?_⟩
  · intro h
    have hconf : configured nullRejectingEnv = false := h.1 rfl
    exact absurd hconf (by decide)
  · intro h
    have hconf : configured nullRejectingEnv = false := h.1 rfl
    exact absurd hconf (by decide)

theorem hexDigit_unreserved (n : Nat) : uriUnreserved (hexDigit n) = true := by
  by_cases h : n < 16
  · interval_cases n <;> rfl
  · have hd : hexDigit n = '0' := by
      unfold hexDigit
      apply List.getD_eq_default
      have : "0123456789ABCDEF".toList.length = 16 := rfl
      omega
    rw [hd]; rfl

theorem encodeChar_chars (ch c : Char) (h : c ∈ encodeChar ch) :
    uriUnreserved c = true ∨ c = '%' := by
  unfold encodeChar at h
  split at h
  · simp at h; subst h; left; assumption
  · simp only [List.mem_flatMap, percentByte] at h
    obtain ⟨b, _, hc⟩ := h
    simp only [List.mem_cons, List.mem_singleton, List.not_mem_nil, or_false] at hc
    rcases hc with hc | hc | hc
    · right; exact hc
    · left; rw [hc]; exact hexDigit_unreserved _
    · left; rw [hc]; exact hexDigit_unreserved _

theorem encodeURIComponent_chars (s : String) (c : Char)
    (h : c ∈ (encodeURIComponent s).toList) : uriUnreserved c = true ∨ c = '%' := by
  simp only [encodeURIComponent, String.toList, List.mem_flatMap] at h
  obtain ⟨ch, _, hc⟩ := h
  exact encodeChar_chars ch c hc

theorem stripTrailingSlash_of_slash (s : String) (h : endsInSlash s = true) :
    stripTrailingSlash s ++ "/" = s := by
  simp only [endsInSlash, decide_eq_true_eq] at h
  apply String.ext
  simp only [stripTrailingSlash, String.toList] at *
  simp only [h, if_true, String.data_append]
  exact List.dropLast_append_getLast? '/' h

theorem stripTrailingSlash_of_no_slash (s : String) (h : endsInSlash s = false) :
    stripTrailingSlash s = s := by
  simp only [endsInSlash, decide_eq_false_iff_not] at h
  simp only [stripTrailingSlash, h, if_false]

theorem stripTrailingSlash_no_slash (s : String) (h : ¬ ∃ p, s = p ++ "//") :
    endsInSlash (stripTrailingSlash s) = false := by
  cases hs : endsInSlash s with
  | false => rw [stripTrailingSlash_of_no_slash s hs]; exact hs
  | true =>
    cases hb : endsInSlash (stripTrailingSlash s) with
    | false => rfl
    | true =>
      exfalso
      apply h
      have h1 := stripTrailingSlash_of_slash s hs
      have h2 := stripTrailingSlash_of_slash _ hb
      refine ⟨stripTrailingSlash (stripTrailingSlash s), ?_⟩
      calc s = stripTrailingSlash s ++ "/" := h1.symm
        _ = (stripTrailingSlash (stripTrailingSlash s) ++ "/") ++ "/" := by rw [h2]
        _ = stripTrailingSlash (stripTrailingSlash s) ++ "//" := by
          rw [String.append_assoc]; rfl

/-- C9 (as amended): for a non-empty request host and a configured client id
`getTraktAuthUrl` returns, without any effect, the redirect URI made of the
request host with one trailing slash removed (if it ends in one) followed by
`/configure`, and an `authUrl` whose `redirect_uri` parameter is that same
redirect URI under `encodeURIComponent` (a text of unreserved characters and
percent signs only). The base before `/configure` does not end in a slash
unless the request host ends in two slashes. -/
theorem auth_url_redirect_uri (env : Env) (requestHost random1 random2 : String)
    (hhost : requestHost ≠ "") (hid : present env.TRAKT_CLIENT_ID = true) :
    ∃ state,
      getTraktAuthUrl env (some requestHost) random1 random2 =
        ([], .ok (.obj [
          ("authUrl", .str ("https://trakt.tv/oauth/authorize?response_type=code&client_id="
            ++ templateText env.TRAKT_CLIENT_ID ++ "&redirect_uri="
            ++ encodeURIComponent (stripTrailingSlash requestHost ++ "/configure")
            ++ "&state=" ++ state)),
          ("state", .str state),
          ("redirectUri", .str (stripTrailingSlash requestHost ++ "/configure"))])) ∧
      getRedirectUri env (some requestHost) = stripTrailingSlash requestHost ++ "/configure" ∧
      (endsInSlash requestHost = true → stripTrailingSlash requestHost ++ "/" = requestHost) ∧
      (endsInSlash requestHost = false → stripTrailingSlash requestHost = requestHost) ∧
      ((¬ ∃ p, requestHost = p ++ "//") →
        endsInSlash (stripTrailingSlash requestHost) = false) ∧
      ∀ c ∈ (encodeURIComponent (stripTrailingSlash requestHost ++ "/configure")).toList,
        uriUnreserved c = true ∨ c = '%' := by
  have hpresent : present (some requestHost) = true := by simp [present, hhost]
  have huri : getRedirectUri env (some requestHost)
      = stripTrailingSlash requestHost ++ "/configure" := by
    simp [getRedirectUri, hpresent, templateText]
  refine ⟨substring random1 2 15 ++ substring random2 2 15, ?_, huri,
    stripTrailingSlash_of_slash requestHost, stripTrailingSlash_of_no_slash requestHost,
    stripTrailingSlash_no_slash requestHost, fun c hc => encodeURIComponent_chars _ c hc⟩
  simp [getTraktAuthUrl, hid, huri, pure, Js.ret]

/-- C9, witness: the host `https://host.example/` yields the redirect URI
`https://host.example/configure`. -/
theorem auth_url_redirect_uri_witness :
    getRedirectUri (demoEnv []) (some "https://host.example/")
      = "https://host.example/configure" ∧
    stripTrailingSlash "https://host.example/" = "https://host.example" ∧
    ∃ state,
      getTraktAuthUrl (demoEnv []) (some "https://host.example/") "0.4fzyo82mvyr" "0.k1x3q9d7e2"
        = ([], .ok (.obj [
          ("authUrl", .str ("https://trakt.tv/oauth/authorize?response_type=code&client_id="
            ++ templateText (demoEnv []).TRAKT_CLIENT_ID ++ "&redirect_uri="
            ++ encodeURIComponent (stripTrailingSlash "https://host.example/" ++ "/configure")
            ++ "&state=" ++ state)),
          ("state", .str state),
          ("redirectUri", .str (stripTrailingSlash "https://host.example/" ++ "/configure"))])) :=
  ⟨by decide, by decide,
    (auth_url_redirect_uri (demoEnv []) "https://host.example/" "0.4fzyo82mvyr" "0.k1x3q9d7e2"
      (by decide) rfl).imp fun _ h => h.1⟩

/-- C9, counterexample: for the host `https://host.example//` the base before
`/configure` is `https://host.example/`, which ends in a slash. -/
theorem redirect_base_may_end_in_slash :
    getRedirectUri (demoEnv []) (some "https://host.example//")
      = "https://host.example/" ++ "/configure" ∧
    stripTrailingSlash "https://host.example//" = "https://host.example/" ∧
    endsInSlash (stripTrailingSlash "https://host.example//") = true ∧
    (getTraktAuthUrl (demoEnv []) (some "https://host.example//") "0.4fzyo82mvyr"
        "0.k1x3q9d7e2").2
      = .ok (.obj [
          ("authUrl", .str ("https://trakt.tv/oauth/authorize?response_type=code&client_id=client"
            ++ "&redirect_uri=https%3A%2F%2Fhost.example%2F%2Fconfigure"
            ++ "&state=4fzyo82mvyrk1x3q9d7e2")),
          ("state", .str "4fzyo82mvyrk1x3q9d7e2"),
          ("redirectUri", .str "https://host.example//configure")]) :=
  ⟨by decide, by decide, by decide, by rfl⟩

/-! ## The catalog updaters -/

theorem hyphen_split (xs ys us vs : List Char) (hu : '-' ∉ us) (hv : '-' ∉ vs)
    (h : xs ++ '-' :: ys = us ++ '-' :: vs) : xs = us ∧ ys = vs := by
  rcases List.append_eq_append_iff.1 h with ⟨a, ha, hb⟩ | ⟨c, hc, hd⟩
  · cases a with
    | nil => simp at ha hb; exact ⟨ha.symm, hb⟩
    | cons x a =>
      simp only [List.cons_append, List.cons.injEq] at hb
      obtain ⟨hx, _⟩ := hb
      subst hx
      exact absurd (by rw [ha]; simp) hu
  · cases c with
    | nil => simp at hc hd; exact ⟨hc, hd.symm⟩
    | cons x c =>
      simp only [List.cons_append, List.cons.injEq] at hd
      obtain ⟨hx, hd⟩ := hd
      subst hx
      exact absurd (by rw [hd]; simp) hv

theorem catalogKey_eq_iff (c tc : CatalogConfig) (hid : '-' ∉ tc.id.toList)
    (htype : '-' ∉ tc.type.toList) :
    catalogKey c = catalogKey tc ↔ c.id = tc.id ∧ c.type = tc.type := by
  constructor
  · intro h
    have h2 : c.id.data ++ '-' :: c.type.data = tc.id.data ++ '-' :: tc.type.data := by
      have := congrArg String.data h
      simpa [catalogKey, String.data_append] using this
    obtain ⟨h3, h4⟩ := hyphen_split _ _ _ _ hid htype h2
    exact ⟨String.ext h3, String.ext h4⟩
  · rintro ⟨h1, h2⟩
    simp [catalogKey, h1, h2]

theorem canonical_no_hyphen (tc : CatalogConfig) (h : tc ∈ traktCatalogsToAdd) :
    '-' ∉ tc.id.toList ∧ '-' ∉ tc.type.toList := by
  simp only [traktCatalogsToAdd, List.mem_cons, List.mem_singleton, List.not_mem_nil,
    or_false] at h
  rcases h with h | h | h | h <;> subst h <;> exact ⟨by decide, by decide⟩

theorem canonical_key_mem (tc : CatalogConfig) (h : tc ∈ traktCatalogsToAdd) :
    (tc.id, tc.type) ∈ canonicalKeys := by
  simp only [traktCatalogsToAdd, List.mem_cons, List.mem_singleton, List.not_mem_nil,
    or_false] at h
  rcases h with h | h | h | h <;> subst h <;> decide

theorem find_canonical (c : CatalogConfig) :
    (traktCatalogsToAdd.find? (fun tc => tc.id == c.id && tc.type == c.type)).isSome
      = decide ((c.id, c.type) ∈ canonicalKeys) := by
  rw [Bool.eq_iff_iff, List.find?_isSome]
  simp only [decide_eq_true_eq, traktCatalogsToAdd, canonicalKeys, List.mem_cons,
    List.mem_singleton, List.not_mem_nil, or_false, Prod.mk.injEq, Bool.and_eq_true,
    beq_iff_eq, exists_eq_or_imp, exists_eq_left]
  constructor <;> intro h <;> rcases h with h | h | h | h <;>
    simp [h.1, h.2]

theorem mem_keys_iff (l : List CatalogConfig) (a b : String) :
    (a, b) ∈ l.map (fun c => (c.id, c.type)) ↔ ∃ c ∈ l, c.id = a ∧ c.type = b := by
  simp [List.mem_map]

theorem mergeVirtualCatalogs_eq_reference (l : List CatalogConfig) :
    mergeVirtualCatalogs l = mergeReference l := by
  unfold mergeVirtualCatalogs mergeReference
  show List.map _ l ++ List.filter _ traktCatalogsToAdd
    = List.map _ l ++ List.filter _ traktCatalogsToAdd
  congr 1
  · apply List.map_congr_left
    intro c _
    have hfind := find_canonical c
    cases hf : traktCatalogsToAdd.find? (fun tc => tc.id == c.id && tc.type == c.type) with
    | none =>
      rw [hf] at hfind
      have hnot : (c.id, c.type) ∉ canonicalKeys := by simpa using hfind.symm
      simp [enableIfCanonical, hnot]
    | some tc =>
      rw [hf] at hfind
      have hmem : (c.id, c.type) ∈ canonicalKeys := by simpa using hfind.symm
      simp [enableIfCanonical, hmem]
  · apply List.filter_congr
    intro tc htc
    obtain ⟨hid, htype⟩ := canonical_no_hyphen tc htc
    rw [Bool.eq_iff_iff]
    simp only [Bool.not_eq_true', decide_eq_true_eq, mem_keys_iff]
    rw [← Bool.not_eq_true, List.contains_iff_exists_mem_beq]
    simp only [List.mem_map, beq_iff_eq, exists_exists_and_eq_and]
    constructor
    · rintro h ⟨c, hc, h1, h2⟩
      exact h ⟨c, hc, ((catalogKey_eq_iff c tc hid htype).2 ⟨h1, h2⟩).symm⟩
    · rintro h ⟨c, hc, hkey⟩
      exact h ⟨c, hc, (catalogKey_eq_iff c tc hid htype).1 hkey.symm⟩

theorem enableIfCanonical_key (c : CatalogConfig) :
    (enableIfCanonical c).id = c.id ∧ (enableIfCanonical c).type = c.type := by
  unfold enableIfCanonical
  split <;> exact ⟨rfl, rfl⟩

theorem enableIfCanonical_idem (c : CatalogConfig) :
    enableIfCanonical (enableIfCanonical c) = enableIfCanonical c := by
  by_cases h : (c.id, c.type) ∈ canonicalKeys <;> simp [enableIfCanonical, h]

theorem enableIfCanonical_canonical (tc : CatalogConfig) (h : tc ∈ traktCatalogsToAdd) :
    enableIfCanonical tc = tc := by
  simp only [traktCatalogsToAdd, List.mem_cons, List.mem_singleton, List.not_mem_nil,
    or_false] at h
  rcases h with h | h | h | h <;> subst h <;> decide

theorem canonical_startsWith (a b : String) (h : (a, b) ∈ canonicalKeys) :
    startsWith a "trakt." = true := by
  simp only [canonicalKeys, List.mem_cons, List.mem_singleton, List.not_mem_nil, or_false,
    Prod.mk.injEq] at h
  rcases h with h | h | h | h <;> rw [h.1] <;> decide

theorem mergeReference_idem (l : List CatalogConfig) :
    mergeReference (mergeReference l) = mergeReference l := by
  have hkeys : ∀ tc ∈ traktCatalogsToAdd,
      (tc.id, tc.type) ∈ (mergeReference l).map fun c => (c.id, c.type) := by
    intro tc htc
    by_cases hin : (tc.id, tc.type) ∈ l.map fun c => (c.id, c.type)
    · obtain ⟨c, hc, h1, h2⟩ := (mem_keys_iff l _ _).1 hin
      refine (mem_keys_iff _ _ _).2 ⟨enableIfCanonical c, ?_, ?_, ?_⟩
      · exact List.mem_append_left _ (List.mem_map_of_mem _ hc)
      · rw [(enableIfCanonical_key c).1, h1]
      · rw [(enableIfCanonical_key c).2, h2]
    · refine (mem_keys_iff _ _ _).2 ⟨tc, ?_, rfl, rfl⟩
      exact List.mem_append_right _ (List.mem_filter.2 ⟨htc, by simpa using hin⟩)
  have hnil : traktCatalogsToAdd.filter (fun tc =>
      decide ((tc.id, tc.type) ∉ (mergeReference l).map fun c => (c.id, c.type))) = [] := by
    rw [List.filter_eq_nil_iff]
    intro tc htc
    simpa using hkeys tc htc
  have hmap : (mergeReference l).map enableIfCanonical = mergeReference l := by
    unfold mergeReference
    rw [List.map_append, List.map_map]
    congr 1
    · apply List.map_congr_left
      intro c _
      exact enableIfCanonical_idem c
    · conv_rhs => rw [← List.map_id (List.filter _ traktCatalogsToAdd)]
      apply List.map_congr_left
      intro tc htc
      exact enableIfCanonical_canonical tc (List.mem_filter.1 htc).1
  have hstep : mergeReference (mergeReference l)
      = (mergeReference l).map enableIfCanonical
        ++ traktCatalogsToAdd.filter (fun tc =>
          decide ((tc.id, tc.type) ∉ (mergeReference l).map fun c => (c.id, c.type))) := rfl
  rw [hstep, hnil, hmap, List.append_nil]

theorem mergeReference_remove (l : List CatalogConfig) :
    mergeReference (removeVirtualCatalogs l) = removeVirtualCatalogs l ++ traktCatalogsToAdd := by
  have hrem : ∀ c ∈ removeVirtualCatalogs l, (c.id, c.type) ∉ canonicalKeys := by
    intro c hc hkey
    have h1 := canonical_startsWith _ _ hkey
    have h2 := (List.mem_filter.1 hc).2
    simp [h1] at h2
  unfold mergeReference
  congr 1
  · conv_rhs => rw [← List.map_id (removeVirtualCatalogs l)]
    apply List.map_congr_left
    intro c hc
    simp [enableIfCanonical, hrem c hc]
  · rw [List.filter_eq_self]
    intro tc htc
    simp only [decide_eq_true_eq]
    intro hin
    obtain ⟨c, hc, h1, h2⟩ := (mem_keys_iff _ _ _).1 hin
    apply hrem c hc
    rw [h1, h2]
    exact canonical_key_mem tc htc

/-- C4: the connect updater is idempotent on every catalog list. -/
theorem mergeVirtualCatalogs_idempotent (l : List CatalogConfig) :
    mergeVirtualCatalogs (mergeVirtualCatalogs l) = mergeVirtualCatalogs l := by
  rw [mergeVirtualCatalogs_eq_reference (mergeVirtualCatalogs l),
    mergeVirtualCatalogs_eq_reference l]
  exact mergeReference_idem l

/-- C5: the connect updater equals its reference definition `mergeReference`:
the entries of the list in their order, those whose `(id, type)` is a canonical
key replaced by a copy with `enabled` and `showInHome` set and the other
fields kept, the others unchanged, followed by exactly the canonical entries
whose key does not occur in the list, in declaration order. -/
theorem mergeVirtualCatalogs_refines_reference (l : List CatalogConfig) :
    mergeVirtualCatalogs l = mergeReference l ∧
    mergeReference l =
      l.map (fun c =>
          if (c.id, c.type) ∈ canonicalKeys then
            { id := c.id, type := c.type, name := c.name, enabled := true, showInHome := true }
          else c)
        ++ traktCatalogsToAdd.filter fun tc =>
          decide ((tc.id, tc.type) ∉ l.map fun c => (c.id, c.type)) :=
  ⟨mergeVirtualCatalogs_eq_reference l, rfl⟩

/-- C6: after the logout updater, the connect updater appends the four canonical
entries to a list free of `trakt.` ids, so the entries of the result whose id
starts with `trakt.` are exactly the four canonical entries, once each, in
declaration order, enabled, shown in home and with their default names. -/
theorem remove_then_merge_restores_canonical (l : List CatalogConfig) :
    mergeVirtualCatalogs (removeVirtualCatalogs l)
      = removeVirtualCatalogs l ++ traktCatalogsToAdd ∧
    (mergeVirtualCatalogs (removeVirtualCatalogs l)).filter
        (fun c => startsWith c.id "trakt.")
      = [ { id := "trakt.watchlist", type := "movie", name := "Trakt Watchlist",
            enabled := true, showInHome := true },
          { id := "trakt.watchlist", type := "series", name := "Trakt Watchlist",
            enabled := true, showInHome := true },
          { id := "trakt.recommendations", type := "movie", name := "Trakt Recommendations",
            enabled := true, showInHome := true },
          { id := "trakt.recommendations", type := "series", name := "Trakt Recommendations",
            enabled := true, showInHome := true } ] := by
  have hmerge : mergeVirtualCatalogs (removeVirtualCatalogs l)
      = removeVirtualCatalogs l ++ traktCatalogsToAdd := by
    rw [mergeVirtualCatalogs_eq_reference]
    exact mergeReference_remove l
  refine ⟨hmerge, ?_⟩
  rw [hmerge, List.filter_append]
  have hnone : (removeVirtualCatalogs l).filter (fun c => startsWith c.id "trakt.") = [] := by
    rw [List.filter_eq_nil_iff]
    intro c hc
    have h2 := (List.mem_filter.1 hc).2
    simpa using h2
  rw [hnone, List.nil_append]
  decide

end Trakt
